import Mathlib

/-!
Verification of the grundstueckverkehrsgesetz-nrw monitor (main.go,
Mastodon-capable version of `checkWebsite`).

The reconciliation cycle is embedded shallowly:

* Go `time.Time` instants become natural numbers; `a.Before(b)` is `a < b`
  and `a.After(b)` is `b < a`.
* All network effects (the monitored page, detail pages, Lemmy login,
  community lookup, Lemmy/Mastodon post creation, Mastodon login) are
  external collaborators; they are supplied as oracles in a `World` record.
  Calls that happen repeatedly in one cycle are indexed by the number of
  calls of that kind already performed in the cycle, so a cycle with several
  links can see different outcomes per call.
* HTML parsing and the XPath query of `extractLinks` are external
  (spec, section 1); `extractLinks` receives the list of href attribute
  values in document order and performs the filtering the Go loop performs.
* Go strings are modelled by Lean `String`; `strings.Split(s, "/")` is
  modelled on the character list (`splitSlash`) and `strings.EqualFold` by
  ASCII case folding (`equalFold`).
-/

namespace GVG

/-- Configuration record, from `Config` in main.go.  Only fields read or
written by `checkWebsite` and its helpers are kept; `time.Time` fields are
natural-number instants. -/
structure Config where
  url : String
  dataFile : String
  lemmyServer : String
  lemmyCommunity : String
  lemmyUsername : String
  lemmyPassword : String
  lemmyToken : String
  lemmyTokenExp : Nat
  ignoreDirs : List String
  mastodonServer : String
  mastodonAccessToken : String
  mastodonUsername : String
  mastodonPassword : String
  mastodonClientID : String
  mastodonClientSecret : String
  mastodonToken : String
  mastodonTokenExp : Nat
  mastodonVisibility : String
  deriving DecidableEq

/-- Persisted link state, from `LinkData` in main.go. -/
structure LinkData where
  links : List String
  failedLinks : List String
  lastSeen : Nat
  deriving DecidableEq

/-- Outcome of fetching one detail page and scraping it: a fetch error, a
parse error from `extractTextBetweenHR`, or the extracted heading, body text
and city name (`extractTextBetweenHR` plus `extractCityName`). -/
inductive PageResult where
  | fetchErr : PageResult
  | parseErr : PageResult
  | ok (title text city : String) : PageResult
  deriving DecidableEq

/-- Oracles for every external call a cycle can make.  Per-call outcomes are
indexed by how many calls of that kind the cycle has already made. -/
structure World where
  pageHrefs : List String
  pages : String → PageResult
  lemmyLoginR : Option String
  communityR : Option Int
  mastodonLoginR : Nat → Option (String × Nat)
  lemmyPostR : Nat → Bool
  mastodonPostR : Nat → Bool

/-- Model of Go `strings.Split(s, "/")` on the character list of `s`. -/
def splitSlash : List Char → List (List Char)
  | [] => [[]]
  | c :: rest =>
    if c = '/' then [] :: splitSlash rest
    else
      match splitSlash rest with
      | [] => [[c]]
      | p :: ps => (c :: p) :: ps

/-- Model of Go `strings.EqualFold`, restricted to ASCII case folding. -/
def equalFold (a b : List Char) : Bool :=
  a.map Char.toLower == b.map Char.toLower

/-- Model of Go `strings.HasPrefix` on the character lists of the strings. -/
def startsWithStr (s p : String) : Bool :=
  List.isPrefixOf p.toList s.toList

/-- Model of Go `strings.HasSuffix` on the character lists of the strings. -/
def endsWithStr (s p : String) : Bool :=
  List.isPrefixOf p.toList.reverse s.toList.reverse

/-- `extractLinks` from main.go, applied to the href attribute values of the
`//a[@href]` nodes in document order (HTML parsing and the XPath query are
external collaborators). -/
def extractLinks : List String → List String → List String
  | [], _ => []
  | href :: rest, ignoreDirs =>
    if href != "" && !startsWithStr href "#" && !startsWithStr href "javascript:" then
      if href.toList.contains '/' && endsWithStr href "/index.htm" then
        if (splitSlash href.toList).length > 1 then
          if ignoreDirs.any (fun ign =>
              equalFold ((splitSlash href.toList).headD []) ign.toList) then
            extractLinks rest ignoreDirs
          else
            href :: extractLinks rest ignoreDirs
        else
          href :: extractLinks rest ignoreDirs
      else
        extractLinks rest ignoreDirs
    else
      extractLinks rest ignoreDirs

/-- `findNewLinks` from main.go: current links absent from the saved links,
in page order, followed by all failed links. -/
def findNewLinks (currentLinks savedLinks failedLinks : List String) : List String :=
  currentLinks.filter (fun link => !savedLinks.contains link) ++ failedLinks

/-- `findRemovedLinks` from main.go: saved links no longer observed. -/
def findRemovedLinks (currentLinks savedLinks : List String) : List String :=
  savedLinks.filter (fun link => !currentLinks.contains link)

/-- The Lemmy platform check at main.go:1272. -/
def lemmyConfigured (c : Config) : Bool :=
  c.lemmyServer != "" && c.lemmyCommunity != "" &&
    c.lemmyUsername != "" && c.lemmyPassword != ""

/-- The Mastodon platform check at main.go:1273. -/
def mastodonConfigured (c : Config) : Bool :=
  c.mastodonServer != "" && c.mastodonAccessToken != ""

/-- The credential-completeness check guarding the Mastodon password-grant
login inside the per-link loop. -/
def mastodonCredsComplete (c : Config) : Bool :=
  c.mastodonUsername != "" && c.mastodonPassword != "" &&
    c.mastodonClientID != "" && c.mastodonClientSecret != ""

/-- Mutable state threaded through the per-link loop of `checkWebsite`:
the link lists being rebuilt, the (mutated) configuration, and the number of
external calls of each kind made so far in the cycle. -/
structure LoopSt where
  links : List String
  failed : List String
  cfg : Config
  mastodonLogins : Nat
  lemmyPosts : Nat
  mastodonPosts : Nat
  deriving DecidableEq

/-- The Lemmy block of the per-link loop: returns `lemmySuccess` and the
updated loop state.  In test mode the post is only logged and counts as
success; with an empty jwt the post is skipped and counts as failure. -/
def lemmyAttempt (w : World) (testMode : Bool) (jwt : String) (st : LoopSt) :
    Bool × LoopSt :=
  if lemmyConfigured st.cfg then
    if !testMode then
      if jwt != "" then
        (w.lemmyPostR st.lemmyPosts, { st with lemmyPosts := st.lemmyPosts + 1 })
      else
        (false, st)
    else
      (true, st)
  else
    (true, st)

/-- The Mastodon token-handling block of the per-link loop: returns
(login succeeded or was not attempted, the token to post with, updated
state).  A refresh is attempted when the access token is empty or the stored
token exists and has expired, and the full password-grant credentials are
present; a successful refresh stores the new token and expiry in the
configuration. -/
def mastodonRefresh (w : World) (now : Nat) (st : LoopSt) :
    Bool × String × LoopSt :=
  if st.cfg.mastodonAccessToken == "" ||
      (st.cfg.mastodonToken != "" && st.cfg.mastodonTokenExp < now) then
    if mastodonCredsComplete st.cfg then
      match w.mastodonLoginR st.mastodonLogins with
      | none =>
        (false, st.cfg.mastodonAccessToken,
         { st with mastodonLogins := st.mastodonLogins + 1 })
      | some (token, exp) =>
        (true, token,
         { st with
            cfg := { st.cfg with mastodonToken := token, mastodonTokenExp := exp },
            mastodonLogins := st.mastodonLogins + 1 })
    else
      (true, st.cfg.mastodonAccessToken, st)
  else
    (true, st.cfg.mastodonAccessToken, st)

/-- The Mastodon block of the per-link loop: token handling, then the post.
An empty token is reported as failure without posting; in test mode the post
is only logged, so the outcome is the login outcome. -/
def mastodonAttempt (w : World) (now : Nat) (testMode : Bool) (st : LoopSt) :
    Bool × LoopSt :=
  if mastodonConfigured st.cfg then
    match mastodonRefresh w now st with
    | (loginOk, mastodonToken, st1) =>
      if mastodonToken == "" then
        (false, st1)
      else if !testMode then
        (loginOk && w.mastodonPostR st1.mastodonPosts,
         { st1 with mastodonPosts := st1.mastodonPosts + 1 })
      else
        (loginOk, st1)
  else
    (true, st)

/-- One iteration of the per-link loop of `checkWebsite` (main.go:1240-1394):
fetch the detail page, scrape it, and, when the text is non-empty, run the
platform blocks and record the link as published or failed. -/
def processLink (w : World) (now : Nat) (testMode : Bool) (jwt : String)
    (st : LoopSt) (link : String) : LoopSt :=
  match w.pages link with
  | .fetchErr => st
  | .parseErr => st
  | .ok _title text _city =>
    if text != "" then
      if !lemmyConfigured st.cfg && !mastodonConfigured st.cfg then
        { st with failed := st.failed ++ [link] }
      else
        let lemmyRes := lemmyAttempt w testMode jwt st
        let mastodonRes := mastodonAttempt w now testMode lemmyRes.2
        if (lemmyConfigured mastodonRes.2.cfg && !lemmyRes.1) ||
            (mastodonConfigured mastodonRes.2.cfg && !mastodonRes.1) then
          { mastodonRes.2 with failed := mastodonRes.2.failed ++ [link] }
        else
          { mastodonRes.2 with links := mastodonRes.2.links ++ [link] }
    else
      st

/-- Result of one reconciliation cycle: the persisted link state, the
(mutated) configuration, and how many external calls of each kind were
made. -/
structure CycleResult where
  data : LinkData
  config : Config
  lemmyLogins : Nat
  mastodonLogins : Nat
  lemmyPosts : Nat
  mastodonPosts : Nat
  communityID : Int
  deriving DecidableEq

/-- The Lemmy token block run once before the per-link loop
(main.go:1210-1226): reuse a stored, unexpired token, otherwise perform one
login call; returns the jwt (empty on login failure), the updated
configuration, and the number of login calls made. -/
def lemmyAuth (w : World) (now : Nat) (config : Config) :
    String × Config × Nat :=
  if config.lemmyToken != "" && now < config.lemmyTokenExp then
    (config.lemmyToken, config, 0)
  else
    match w.lemmyLoginR with
    | none => ("", config, 1)
    | some jwt =>
      (jwt, { config with lemmyToken := jwt, lemmyTokenExp := now + 3600 }, 1)

/-- `checkWebsite` from main.go (the Mastodon-capable version starting at
line 1164): extract links, compute new and removed links, acquire the Lemmy
token once when there is work, look up the community id, run the per-link
loop, then apply the removed-link bookkeeping and return the state to be
persisted. -/
def checkWebsite (w : World) (now : Nat) (config : Config)
    (savedData : LinkData) (testMode : Bool) : CycleResult :=
  let currentLinks := extractLinks w.pageHrefs config.ignoreDirs
  let newLinks := findNewLinks currentLinks savedData.links savedData.failedLinks
  let removedLinks := findRemovedLinks currentLinks savedData.links
  if newLinks.length > 0 then
    let jwt := (lemmyAuth w now config).1
    let st0 : LoopSt :=
      { links := savedData.links, failed := [],
        cfg := (lemmyAuth w now config).2.1,
        mastodonLogins := 0, lemmyPosts := 0, mastodonPosts := 0 }
    let st := newLinks.foldl (processLink w now testMode jwt) st0
    { data :=
        { links :=
            if removedLinks.length > 0 then
              st.links.filter (fun link => currentLinks.contains link)
            else
              st.links,
          failedLinks := st.failed, lastSeen := now },
      config := st.cfg,
      lemmyLogins := (lemmyAuth w now config).2.2,
      mastodonLogins := st.mastodonLogins,
      lemmyPosts := st.lemmyPosts,
      mastodonPosts := st.mastodonPosts,
      communityID := if jwt != "" then w.communityR.getD 0 else 0 }
  else
    { data :=
        { links :=
            if removedLinks.length > 0 then
              savedData.links.filter (fun link => currentLinks.contains link)
            else
              savedData.links,
          failedLinks := savedData.failedLinks, lastSeen := now },
      config := config, lemmyLogins := 0, mastodonLogins := 0,
      lemmyPosts := 0, mastodonPosts := 0, communityID := 0 }

/-- The filtering condition of `extractLinks`, as claim C10 words it: a
non-empty href not starting with "#" or "javascript:", containing "/",
ending in "/index.htm", whose first "/"-separated segment is not
case-insensitively equal to any ignore-list entry. -/
def hrefKeptSpec (ignoreDirs : List String) (href : String) : Bool :=
  (href != "" && !startsWithStr href "#" && !startsWithStr href "javascript:") &&
    (href.toList.contains '/' && endsWithStr href "/index.htm") &&
    !(ignoreDirs.any fun ign =>
      equalFold ((splitSlash href.toList).headD []) ign.toList)

def cfg8 : Config :=
  { url := "http://x", dataFile := "links.json",
    lemmyServer := "", lemmyCommunity := "", lemmyUsername := "",
    lemmyPassword := "", lemmyToken := "", lemmyTokenExp := 0,
    ignoreDirs := [],
    mastodonServer := "", mastodonAccessToken := "", mastodonUsername := "",
    mastodonPassword := "", mastodonClientID := "", mastodonClientSecret := "",
    mastodonToken := "", mastodonTokenExp := 0, mastodonVisibility := "" }

def w8 : World :=
  { pageHrefs := ["x/index.htm"],
    pages := fun _ => .ok "" "Body" "",
    lemmyLoginR := none,
    communityR := none,
    mastodonLoginR := fun _ => none,
    lemmyPostR := fun _ => false,
    mastodonPostR := fun _ => false }

def w8next : World :=
  { pageHrefs := ["other/index.htm"],
    pages := fun _ => .ok "" "Body" "",
    lemmyLoginR := none,
    communityR := none,
    mastodonLoginR := fun _ => none,
    lemmyPostR := fun _ => false,
    mastodonPostR := fun _ => false }

def cfg5 : Config :=
  { url := "http://x", dataFile := "links.json",
    lemmyServer := "", lemmyCommunity := "", lemmyUsername := "",
    lemmyPassword := "", lemmyToken := "", lemmyTokenExp := 0,
    ignoreDirs := [],
    mastodonServer := "", mastodonAccessToken := "", mastodonUsername := "",
    mastodonPassword := "", mastodonClientID := "", mastodonClientSecret := "",
    mastodonToken := "", mastodonTokenExp := 0, mastodonVisibility := "" }

def w5empty : World :=
  { pageHrefs := ["a/index.htm"],
    pages := fun _ => .ok "" "" "",
    lemmyLoginR := none,
    communityR := none,
    mastodonLoginR := fun _ => none,
    lemmyPostR := fun _ => false,
    mastodonPostR := fun _ => false }

def w5text : World :=
  { pageHrefs := ["a/index.htm"],
    pages := fun _ => .ok "" "Body" "",
    lemmyLoginR := none,
    communityR := none,
    mastodonLoginR := fun _ => none,
    lemmyPostR := fun _ => false,
    mastodonPostR := fun _ => false }

def cfg1 : Config :=
  { url := "http://x", dataFile := "links.json",
    lemmyServer := "https://l", lemmyCommunity := "k", lemmyUsername := "u",
    lemmyPassword := "p", lemmyToken := "tok", lemmyTokenExp := 100,
    ignoreDirs := [],
    mastodonServer := "", mastodonAccessToken := "", mastodonUsername := "",
    mastodonPassword := "", mastodonClientID := "", mastodonClientSecret := "",
    mastodonToken := "", mastodonTokenExp := 0, mastodonVisibility := "" }

def w1 : World :=
  { pageHrefs := ["a/index.htm"],
    pages := fun _ => .ok "" "Body" "",
    lemmyLoginR := none,
    communityR := none,
    mastodonLoginR := fun _ => none,
    lemmyPostR := fun _ => false,
    mastodonPostR := fun _ => false }

def cfg2x : Config :=
  { url := "http://x", dataFile := "links.json",
    lemmyServer := "https://l", lemmyCommunity := "k", lemmyUsername := "u",
    lemmyPassword := "p", lemmyToken := "tok", lemmyTokenExp := 100,
    ignoreDirs := [],
    mastodonServer := "", mastodonAccessToken := "", mastodonUsername := "",
    mastodonPassword := "", mastodonClientID := "", mastodonClientSecret := "",
    mastodonToken := "", mastodonTokenExp := 0, mastodonVisibility := "" }

def w2x : World :=
  { pageHrefs := ["a/index.htm"],
    pages := fun _ => .ok "" "Body" "",
    lemmyLoginR := none,
    communityR := none,
    mastodonLoginR := fun _ => none,
    lemmyPostR := fun n => n == 0,
    mastodonPostR := fun _ => false }

def cfg2w : Config :=
  { url := "http://x", dataFile := "links.json",
    lemmyServer := "https://l", lemmyCommunity := "k", lemmyUsername := "u",
    lemmyPassword := "p", lemmyToken := "tok", lemmyTokenExp := 100,
    ignoreDirs := [],
    mastodonServer := "", mastodonAccessToken := "", mastodonUsername := "",
    mastodonPassword := "", mastodonClientID := "", mastodonClientSecret := "",
    mastodonToken := "", mastodonTokenExp := 0, mastodonVisibility := "" }

def w2w : World :=
  { pageHrefs := ["a/index.htm"],
    pages := fun _ => .ok "" "Body" "",
    lemmyLoginR := none,
    communityR := none,
    mastodonLoginR := fun _ => none,
    lemmyPostR := fun _ => true,
    mastodonPostR := fun _ => false }

def cfg9x : Config :=
  { url := "http://x", dataFile := "links.json",
    lemmyServer := "https://l", lemmyCommunity := "k", lemmyUsername := "u",
    lemmyPassword := "p", lemmyToken := "tok", lemmyTokenExp := 100,
    ignoreDirs := [],
    mastodonServer := "", mastodonAccessToken := "", mastodonUsername := "",
    mastodonPassword := "", mastodonClientID := "", mastodonClientSecret := "",
    mastodonToken := "", mastodonTokenExp := 0, mastodonVisibility := "" }

def w9x : World :=
  { pageHrefs := ["a/index.htm"],
    pages := fun _ => .ok "" "Body" "",
    lemmyLoginR := none,
    communityR := none,
    mastodonLoginR := fun _ => none,
    lemmyPostR := fun _ => true,
    mastodonPostR := fun _ => false }

def cfg9w : Config :=
  { url := "http://x", dataFile := "links.json",
    lemmyServer := "https://l", lemmyCommunity := "k", lemmyUsername := "u",
    lemmyPassword := "p", lemmyToken := "tok", lemmyTokenExp := 100,
    ignoreDirs := [],
    mastodonServer := "", mastodonAccessToken := "", mastodonUsername := "",
    mastodonPassword := "", mastodonClientID := "", mastodonClientSecret := "",
    mastodonToken := "", mastodonTokenExp := 0, mastodonVisibility := "" }

def w9w : World :=
  { pageHrefs := ["a/index.htm"],
    pages := fun _ => .ok "" "Body" "",
    lemmyLoginR := none,
    communityR := none,
    mastodonLoginR := fun _ => none,
    lemmyPostR := fun _ => true,
    mastodonPostR := fun _ => false }

def cfg4 : Config :=
  { url := "http://x", dataFile := "links.json",
    lemmyServer := "https://l", lemmyCommunity := "k", lemmyUsername := "u",
    lemmyPassword := "p", lemmyToken := "tok", lemmyTokenExp := 100,
    ignoreDirs := [],
    mastodonServer := "https://m", mastodonAccessToken := "AT",
    mastodonUsername := "", mastodonPassword := "", mastodonClientID := "",
    mastodonClientSecret := "", mastodonToken := "", mastodonTokenExp := 0,
    mastodonVisibility := "unlisted" }

def w4 : World :=
  { pageHrefs := ["a/index.htm"],
    pages := fun _ => .ok "" "Body" "",
    lemmyLoginR := none,
    communityR := none,
    mastodonLoginR := fun _ => none,
    lemmyPostR := fun _ => true,
    mastodonPostR := fun _ => false }

def st4 : LoopSt :=
  { links := [], failed := [], cfg := cfg4,
    mastodonLogins := 0, lemmyPosts := 0, mastodonPosts := 0 }

def cfg6x : Config :=
  { url := "http://x", dataFile := "links.json",
    lemmyServer := "", lemmyCommunity := "", lemmyUsername := "",
    lemmyPassword := "", lemmyToken := "", lemmyTokenExp := 0,
    ignoreDirs := [],
    mastodonServer := "https://m", mastodonAccessToken := "AT",
    mastodonUsername := "mu", mastodonPassword := "mp",
    mastodonClientID := "ci", mastodonClientSecret := "cs",
    mastodonToken := "old", mastodonTokenExp := 0,
    mastodonVisibility := "unlisted" }

def w6x : World :=
  { pageHrefs := ["a/index.htm", "b/index.htm"],
    pages := fun _ => .ok "" "Body" "",
    lemmyLoginR := none,
    communityR := none,
    mastodonLoginR := fun _ => none,
    lemmyPostR := fun _ => false,
    mastodonPostR := fun _ => false }

def cfg6w : Config :=
  { url := "http://x", dataFile := "links.json",
    lemmyServer := "https://l", lemmyCommunity := "k", lemmyUsername := "u",
    lemmyPassword := "p", lemmyToken := "tok", lemmyTokenExp := 100,
    ignoreDirs := [],
    mastodonServer := "", mastodonAccessToken := "", mastodonUsername := "",
    mastodonPassword := "", mastodonClientID := "", mastodonClientSecret := "",
    mastodonToken := "", mastodonTokenExp := 0, mastodonVisibility := "" }

def w6w : World :=
  { pageHrefs := ["a/index.htm"],
    pages := fun _ => .ok "" "Body" "",
    lemmyLoginR := none,
    communityR := none,
    mastodonLoginR := fun _ => none,
    lemmyPostR := fun _ => true,
    mastodonPostR := fun _ => false }

/-- Platform-configured predicates as claim C7 words them (refinement
targets, written from the spec's words, not from the source): Lemmy needs
server and community plus either username/password or a persisted token;
Mastodon needs server plus either an access token or full client
credentials with username/password. -/
def lemmyConfiguredSpec (c : Config) : Bool :=
  c.lemmyServer != "" && c.lemmyCommunity != "" &&
    ((c.lemmyUsername != "" && c.lemmyPassword != "") || c.lemmyToken != "")

/-- Mastodon half of the claim C7 configured predicate (from the spec's
words, see `lemmyConfiguredSpec`). -/
def mastodonConfiguredSpec (c : Config) : Bool :=
  c.mastodonServer != "" &&
    (c.mastodonAccessToken != "" ||
     (c.mastodonClientID != "" && c.mastodonClientSecret != "" &&
      c.mastodonUsername != "" && c.mastodonPassword != ""))

def cfg7x : Config :=
  { url := "http://x", dataFile := "links.json",
    lemmyServer := "https://l", lemmyCommunity := "k", lemmyUsername := "",
    lemmyPassword := "", lemmyToken := "tok", lemmyTokenExp := 100,
    ignoreDirs := [],
    mastodonServer := "https://m", mastodonAccessToken := "",
    mastodonUsername := "mu", mastodonPassword := "mp",
    mastodonClientID := "ci", mastodonClientSecret := "cs",
    mastodonToken := "", mastodonTokenExp := 0,
    mastodonVisibility := "unlisted" }

def cfg7w : Config :=
  { url := "http://x", dataFile := "links.json",
    lemmyServer := "", lemmyCommunity := "", lemmyUsername := "",
    lemmyPassword := "", lemmyToken := "", lemmyTokenExp := 0,
    ignoreDirs := [],
    mastodonServer := "", mastodonAccessToken := "", mastodonUsername := "",
    mastodonPassword := "", mastodonClientID := "", mastodonClientSecret := "",
    mastodonToken := "", mastodonTokenExp := 0, mastodonVisibility := "" }

def st7w : LoopSt :=
  { links := [], failed := [], cfg := cfg7w,
    mastodonLogins := 0, lemmyPosts := 0, mastodonPosts := 0 }

def w7w : World :=
  { pageHrefs := ["a/index.htm"],
    pages := fun _ => .ok "" "Body" "",
    lemmyLoginR := none,
    communityR := none,
    mastodonLoginR := fun _ => none,
    lemmyPostR := fun _ => true,
    mastodonPostR := fun _ => true }

theorem lemmyAttempt_state (w : World) (tm : Bool) (jwt : String) (st : LoopSt) :
    (lemmyAttempt w tm jwt st).2.links = st.links ∧
    (lemmyAttempt w tm jwt st).2.failed = st.failed ∧
    (lemmyAttempt w tm jwt st).2.cfg = st.cfg ∧
    (lemmyAttempt w tm jwt st).2.mastodonLogins = st.mastodonLogins ∧
    (lemmyAttempt w tm jwt st).2.mastodonPosts = st.mastodonPosts := by
  unfold lemmyAttempt
  repeat' split
  all_goals simp

theorem mastodonRefresh_state (w : World) (now : Nat) (st : LoopSt) :
    (mastodonRefresh w now st).2.2.links = st.links ∧
    (mastodonRefresh w now st).2.2.failed = st.failed ∧
    (mastodonRefresh w now st).2.2.lemmyPosts = st.lemmyPosts ∧
    (mastodonRefresh w now st).2.2.mastodonPosts = st.mastodonPosts ∧
    lemmyConfigured (mastodonRefresh w now st).2.2.cfg = lemmyConfigured st.cfg ∧
    mastodonConfigured (mastodonRefresh w now st).2.2.cfg = mastodonConfigured st.cfg := by
  unfold mastodonRefresh
  repeat' split
  all_goals simp [lemmyConfigured, mastodonConfigured]

theorem mastodonAttempt_state (w : World) (now : Nat) (tm : Bool) (st : LoopSt) :
    (mastodonAttempt w now tm st).2.links = st.links ∧
    (mastodonAttempt w now tm st).2.failed = st.failed ∧
    (mastodonAttempt w now tm st).2.lemmyPosts = st.lemmyPosts ∧
    lemmyConfigured (mastodonAttempt w now tm st).2.cfg = lemmyConfigured st.cfg ∧
    mastodonConfigured (mastodonAttempt w now tm st).2.cfg = mastodonConfigured st.cfg := by
  have hS := mastodonRefresh_state w now st
  unfold mastodonAttempt
  split
  case isTrue =>
    rcases hR : mastodonRefresh w now st with ⟨lok, tok, st1⟩
    rw [hR] at hS
    simp only at hS
    obtain ⟨h1, h2, h3, h4, h5, h6⟩ := hS
    repeat' split
    all_goals simp_all
  case isFalse => simp

theorem processLink_cases (w : World) (now : Nat) (tm : Bool) (jwt : String)
    (st : LoopSt) (link : String) :
    ((processLink w now tm jwt st link).links = st.links ∧
       (processLink w now tm jwt st link).failed = st.failed) ∨
    ((processLink w now tm jwt st link).links = st.links ++ [link] ∧
       (processLink w now tm jwt st link).failed = st.failed) ∨
    ((processLink w now tm jwt st link).links = st.links ∧
       (processLink w now tm jwt st link).failed = st.failed ++ [link]) := by
  obtain ⟨l1, l2, l3, l4, l5⟩ := lemmyAttempt_state w tm jwt st
  obtain ⟨m1, m2, m3, m4, m5⟩ := mastodonAttempt_state w now tm (lemmyAttempt w tm jwt st).2
  unfold processLink
  cases hp : w.pages link with
  | fetchErr => left; exact ⟨rfl, rfl⟩
  | parseErr => left; exact ⟨rfl, rfl⟩
  | ok t te c =>
    simp only
    split
    · split
      · right; right; simp
      · split
        · right; right; simp_all
        · right; left; simp_all
    · left; exact ⟨rfl, rfl⟩

theorem processLink_configured (w : World) (now : Nat) (tm : Bool) (jwt : String)
    (st : LoopSt) (link : String) :
    lemmyConfigured (processLink w now tm jwt st link).cfg = lemmyConfigured st.cfg ∧
    mastodonConfigured (processLink w now tm jwt st link).cfg = mastodonConfigured st.cfg := by
  obtain ⟨l1, l2, l3, l4, l5⟩ := lemmyAttempt_state w tm jwt st
  obtain ⟨m1, m2, m3, m4, m5⟩ := mastodonAttempt_state w now tm (lemmyAttempt w tm jwt st).2
  unfold processLink
  cases hp : w.pages link with
  | fetchErr => exact ⟨rfl, rfl⟩
  | parseErr => exact ⟨rfl, rfl⟩
  | ok t te c =>
    simp only
    split
    · split
      · simp
      · split <;> simp_all
    · exact ⟨rfl, rfl⟩

theorem foldl_processLink_disjoint (w : World) (now : Nat) (tm : Bool)
    (jwt : String) (newLinks : List String) :
    ∀ st : LoopSt, newLinks.Nodup →
      (∀ x, x ∈ st.links → x ∉ st.failed) →
      (∀ x, x ∈ newLinks → x ∉ st.links ∧ x ∉ st.failed) →
      ∀ x, x ∈ (newLinks.foldl (processLink w now tm jwt) st).links →
           x ∉ (newLinks.foldl (processLink w now tm jwt) st).failed := by
  induction newLinks with
  | nil =>
    intro st _ hd _
    exact hd
  | cons a rest ih =>
    intro st hnd hd hfresh
    rw [List.nodup_cons] at hnd
    obtain ⟨ha, hrest⟩ := hnd
    have hafresh := hfresh a (List.mem_cons_self a rest)
    simp only [List.foldl_cons]
    rcases processLink_cases w now tm jwt st a with ⟨e1, e2⟩ | ⟨e1, e2⟩ | ⟨e1, e2⟩
    · apply ih _ hrest
      · intro x hx
        rw [e2]
        exact hd x (e1 ▸ hx)
      · intro x hx
        have hx2 := hfresh x (List.mem_cons_of_mem a hx)
        rw [e1, e2]
        exact hx2
    · apply ih _ hrest
      · intro x hx
        rw [e2]
        rw [e1, List.mem_append, List.mem_singleton] at hx
        rcases hx with hx | hx
        · exact hd x hx
        · subst hx; exact hafresh.2
      · intro x hx
        have hx2 := hfresh x (List.mem_cons_of_mem a hx)
        constructor
        · rw [e1, List.mem_append, List.mem_singleton]
          rintro (h1 | h1)
          · exact hx2.1 h1
          · subst h1; exact ha hx
        · rw [e2]; exact hx2.2
    · apply ih _ hrest
      · intro x hx
        rw [e2, List.mem_append, List.mem_singleton]
        rw [e1] at hx
        rintro (h1 | h1)
        · exact hd x hx h1
        · subst h1; exact hafresh.1 hx
      · intro x hx
        have hx2 := hfresh x (List.mem_cons_of_mem a hx)
        constructor
        · rw [e1]; exact hx2.1
        · rw [e2, List.mem_append, List.mem_singleton]
          rintro (h1 | h1)
          · exact hx2.2 h1
          · subst h1; exact ha hx

theorem foldl_processLink_nodup (w : World) (now : Nat) (tm : Bool)
    (jwt : String) (newLinks : List String) :
    ∀ st : LoopSt, newLinks.Nodup → st.links.Nodup → st.failed.Nodup →
      (∀ x, x ∈ newLinks → x ∉ st.links ∧ x ∉ st.failed) →
      (newLinks.foldl (processLink w now tm jwt) st).links.Nodup ∧
      (newLinks.foldl (processLink w now tm jwt) st).failed.Nodup := by
  induction newLinks with
  | nil =>
    intro st _ hl hf _
    exact ⟨hl, hf⟩
  | cons a rest ih =>
    intro st hnd hl hf hfresh
    rw [List.nodup_cons] at hnd
    obtain ⟨ha, hrest⟩ := hnd
    have hafresh := hfresh a (List.mem_cons_self a rest)
    simp only [List.foldl_cons]
    rcases processLink_cases w now tm jwt st a with ⟨e1, e2⟩ | ⟨e1, e2⟩ | ⟨e1, e2⟩
    · apply ih _ hrest (e1 ▸ hl) (e2 ▸ hf)
      intro x hx
      have hx2 := hfresh x (List.mem_cons_of_mem a hx)
      rw [e1, e2]
      exact hx2
    · apply ih _ hrest
      · rw [e1]
        simp only [List.nodup_append, List.nodup_singleton, true_and]
        refine ⟨hl, ?_⟩
        intro x hx hx1
        rw [List.mem_singleton] at hx1
        subst hx1
        exact hafresh.1 hx
      · rw [e2]; exact hf
      · intro x hx
        have hx2 := hfresh x (List.mem_cons_of_mem a hx)
        constructor
        · rw [e1, List.mem_append, List.mem_singleton]
          rintro (h1 | h1)
          · exact hx2.1 h1
          · subst h1; exact ha hx
        · rw [e2]; exact hx2.2
    · apply ih _ hrest
      · rw [e1]; exact hl
      · rw [e2]
        simp only [List.nodup_append, List.nodup_singleton, true_and]
        refine ⟨hf, ?_⟩
        intro x hx hx1
        rw [List.mem_singleton] at hx1
        subst hx1
        exact hafresh.2 hx
      · intro x hx
        have hx2 := hfresh x (List.mem_cons_of_mem a hx)
        constructor
        · rw [e1]; exact hx2.1
        · rw [e2, List.mem_append, List.mem_singleton]
          rintro (h1 | h1)
          · exact hx2.2 h1
          · subst h1; exact ha hx

theorem splitSlash_ne_nil (l : List Char) : splitSlash l ≠ [] := by
  cases l with
  | nil => simp [splitSlash]
  | cons c rest =>
    rw [splitSlash]
    split
    · simp
    · split <;> simp

theorem splitSlash_length_gt_one (l : List Char) (h : l.contains '/' = true) :
    (splitSlash l).length > 1 := by
  induction l with
  | nil => simp at h
  | cons c rest ih =>
    rw [splitSlash]
    by_cases hc : c = '/'
    · rw [if_pos hc]
      cases hsp : splitSlash rest with
      | nil => exact absurd hsp (splitSlash_ne_nil rest)
      | cons p ps => simp
    · rw [if_neg hc]
      have h2 : rest.contains '/' = true := by
        rw [List.contains_cons] at h
        rcases Bool.or_eq_true_iff.mp h with h3 | h3
        · exact absurd (beq_iff_eq.mp h3).symm hc
        · exact h3
      have hlen := ih h2
      cases hsp : splitSlash rest with
      | nil => exact absurd hsp (splitSlash_ne_nil rest)
      | cons p ps =>
        rw [hsp] at hlen
        simp only [List.length_cons] at hlen ⊢
        omega

/-- Claim C10: `extractLinks` returns exactly the href values, in document
order, that are non-empty, do not start with "#" or "javascript:", contain
a "/", end with "/index.htm", and whose first "/"-separated segment is not
case-insensitively equal to any ignore-list entry. -/
theorem extractLinks_spec (hrefs ignoreDirs : List String) :
    extractLinks hrefs ignoreDirs = hrefs.filter (hrefKeptSpec ignoreDirs) := by
  induction hrefs with
  | nil => rfl
  | cons href rest ih =>
    rw [extractLinks, List.filter_cons]
    by_cases h1 : (href != "" && !startsWithStr href "#" &&
        !startsWithStr href "javascript:") = true
    · rw [if_pos h1]
      by_cases h2 : (href.toList.contains '/' && endsWithStr href "/index.htm") = true
    
      · rw [if_pos h2]
        have h2c : href.toList.contains '/' = true := by
          have h2x := h2
          simp only [Bool.and_eq_true] at h2x
          exact h2x.1
        have hlen : (splitSlash href.toList).length > 1 :=
          splitSlash_length_gt_one _ h2c
        rw [if_pos hlen]
        by_cases h3 : (ignoreDirs.any fun ign =>
            equalFold ((splitSlash href.toList).headD []) ign.toList) = true
        · rw [if_pos h3]
          have hpred : hrefKeptSpec ignoreDirs href = false := by
            simp only [hrefKeptSpec, h1, h2, h3, Bool.true_and, Bool.not_true,
              Bool.and_false, Bool.false_and]
          rw [if_neg (by rw [hpred]; exact Bool.false_ne_true)]
          exact ih
        · rw [if_neg h3]
          simp only [Bool.not_eq_true] at h3
          have hpred : hrefKeptSpec ignoreDirs href = true := by
            simp only [hrefKeptSpec, h1, h2, h3, Bool.true_and, Bool.not_false,
              Bool.and_true]
          rw [if_pos hpred, ih]
      · rw [if_neg h2]
        simp only [Bool.not_eq_true] at h2
        have hpred : hrefKeptSpec ignoreDirs href = false := by
          simp only [hrefKeptSpec, h1, h2, Bool.true_and, Bool.and_false,
            Bool.false_and]
        rw [if_neg (by rw [hpred]; exact Bool.false_ne_true)]
        exact ih
    · rw [if_neg h1]
      simp only [Bool.not_eq_true] at h1
      have hpred : hrefKeptSpec ignoreDirs href = false := by
        simp only [hrefKeptSpec, h1, Bool.false_and]
      rw [if_neg (by rw [hpred]; exact Bool.false_ne_true)]
      exact ih

theorem findNewLinks_mem (current saved failed : List String) (l : String) :
    l ∈ findNewLinks current saved failed ↔
      ((l ∈ current ∧ l ∉ saved) ∨ l ∈ failed) := by
  rw [findNewLinks, List.mem_append, List.mem_filter]
  simp

/-- Claim C3: the set of links attempted in a cycle is
(observed minus published) union pending, ordered new-links-first in page
order, then the pending retry links. -/
theorem findNewLinks_spec (current saved failed : List String) :
    findNewLinks current saved failed
      = current.filter (fun link => !saved.contains link) ++ failed ∧
    ∀ l, l ∈ findNewLinks current saved failed ↔
      ((l ∈ current ∧ l ∉ saved) ∨ l ∈ failed) :=
  ⟨rfl, findNewLinks_mem current saved failed⟩

/-- Claim C8: a link in the pending list after one cycle is part of the
links the next cycle processes, whatever that next cycle observes. -/
theorem pending_retried_next_cycle (w wNext : World) (now : Nat)
    (cfg cfgNext : Config) (saved : LinkData) (tm : Bool) (l : String)
    (h : l ∈ (checkWebsite w now cfg saved tm).data.failedLinks) :
    l ∈ findNewLinks (extractLinks wNext.pageHrefs cfgNext.ignoreDirs)
        (checkWebsite w now cfg saved tm).data.links
        (checkWebsite w now cfg saved tm).data.failedLinks := by
  rw [findNewLinks, List.mem_append]
  exact Or.inr h

theorem pending_retried_next_cycle_witness :
    "x/index.htm" ∈ findNewLinks (extractLinks w8next.pageHrefs cfg8.ignoreDirs)
      (checkWebsite w8 5 cfg8 { links := [], failedLinks := [], lastSeen := 0 } false).data.links
      (checkWebsite w8 5 cfg8 { links := [], failedLinks := [], lastSeen := 0 } false).data.failedLinks :=
  pending_retried_next_cycle w8 w8next 5 cfg8 cfg8
    { links := [], failedLinks := [], lastSeen := 0 } false "x/index.htm" (by decide)

theorem processLink_unconfigured (w : World) (now : Nat) (tm : Bool)
    (jwt : String) (st : LoopSt) (link : String)
    (hl : lemmyConfigured st.cfg = false) (hm : mastodonConfigured st.cfg = false) :
    processLink w now tm jwt st link =
      match w.pages link with
      | .ok _t te _c =>
        if te != "" then { st with failed := st.failed ++ [link] } else st
      | _ => st := by
  unfold processLink
  cases w.pages link with
  | fetchErr => rfl
  | parseErr => rfl
  | ok t te c =>
    simp only
    split
    · rw [if_pos (by simp [hl, hm])]
    · rfl

theorem foldl_unconfigured (w : World) (now : Nat) (tm : Bool) (jwt : String)
    (ls : List String) :
    ∀ st : LoopSt, lemmyConfigured st.cfg = false → mastodonConfigured st.cfg = false →
      (ls.foldl (processLink w now tm jwt) st).links = st.links ∧
      (ls.foldl (processLink w now tm jwt) st).cfg = st.cfg ∧
      (ls.foldl (processLink w now tm jwt) st).lemmyPosts = st.lemmyPosts ∧
      (ls.foldl (processLink w now tm jwt) st).mastodonPosts = st.mastodonPosts ∧
      (ls.foldl (processLink w now tm jwt) st).mastodonLogins = st.mastodonLogins ∧
      (∀ x, x ∈ st.failed → x ∈ (ls.foldl (processLink w now tm jwt) st).failed) ∧
      (∀ x, x ∈ ls → ∀ ti te ci, w.pages x = .ok ti te ci → te ≠ "" →
        x ∈ (ls.foldl (processLink w now tm jwt) st).failed) := by
  induction ls with
  | nil =>
    intro st _ _
    refine ⟨rfl, rfl, rfl, rfl, rfl, fun x hx => hx, ?_⟩
    intro x hx
    simp at hx
  | cons a rest ih =>
    intro st hl hm
    simp only [List.foldl_cons]
    cases hp : w.pages a with
    | fetchErr =>
      have he : processLink w now tm jwt st a = st := by
        rw [processLink_unconfigured w now tm jwt st a hl hm, hp]
      rw [he]
      obtain ⟨i1, i2, i3, i4, i5, i6, i7⟩ := ih st hl hm
      refine ⟨i1, i2, i3, i4, i5, i6, ?_⟩
      intro x hx ti te ci hpg hte
      rcases List.mem_cons.mp hx with rfl | hx
      · rw [hp] at hpg
        exact absurd hpg (by simp)
      · exact i7 x hx ti te ci hpg hte
    | parseErr =>
      have he : processLink w now tm jwt st a = st := by
        rw [processLink_unconfigured w now tm jwt st a hl hm, hp]
      rw [he]
      obtain ⟨i1, i2, i3, i4, i5, i6, i7⟩ := ih st hl hm
      refine ⟨i1, i2, i3, i4, i5, i6, ?_⟩
      intro x hx ti te ci hpg hte
      rcases List.mem_cons.mp hx with rfl | hx
      · rw [hp] at hpg
        exact absurd hpg (by simp)
      · exact i7 x hx ti te ci hpg hte
    | ok t te c =>
      by_cases hte : (te != "") = true
      · have he : processLink w now tm jwt st a
            = { st with failed := st.failed ++ [a] } := by
          rw [processLink_unconfigured w now tm jwt st a hl hm, hp]
          simp [hte]
        rw [he]
        obtain ⟨i1, i2, i3, i4, i5, i6, i7⟩ :=
          ih { st with failed := st.failed ++ [a] } hl hm
        refine ⟨i1, i2, i3, i4, i5, ?_, ?_⟩
        · intro x hx
          exact i6 x (by simp [hx])
        · intro x hx ti te2 ci hpg hte2
          rcases List.mem_cons.mp hx with rfl | hx
          · exact i6 x (by simp)
          · exact i7 x hx ti te2 ci hpg hte2
      · have he : processLink w now tm jwt st a = st := by
          rw [processLink_unconfigured w now tm jwt st a hl hm, hp]
          simp [hte]
        rw [he]
        obtain ⟨i1, i2, i3, i4, i5, i6, i7⟩ := ih st hl hm
        refine ⟨i1, i2, i3, i4, i5, i6, ?_⟩
        intro x hx ti te2 ci hpg hte2
        rcases List.mem_cons.mp hx with rfl | hx
        · rw [hp] at hpg
          have : te2 = te := by
            cases hpg
            rfl
          subst this
          simp only [Bool.not_eq_true, bne_eq_false_iff_eq] at hte
          exact absurd hte hte2
        · exact i7 x hx ti te2 ci hpg hte2

theorem lemmyAuth_configured (w : World) (now : Nat) (cfg : Config) :
    lemmyConfigured (lemmyAuth w now cfg).2.1 = lemmyConfigured cfg ∧
    mastodonConfigured (lemmyAuth w now cfg).2.1 = mastodonConfigured cfg ∧
    (lemmyAuth w now cfg).2.1.mastodonToken = cfg.mastodonToken ∧
    (lemmyAuth w now cfg).2.1.mastodonTokenExp = cfg.mastodonTokenExp := by
  unfold lemmyAuth
  split
  · exact ⟨rfl, rfl, rfl, rfl⟩
  · split
    · exact ⟨rfl, rfl, rfl, rfl⟩
    · simp [lemmyConfigured, mastodonConfigured]

/-- Claim C5 (amended): with no platform configured, a cycle attempts no
post; the published list gains nothing; and every processed link whose
detail page yields non-empty text ends the cycle in the pending list
(links with empty or unobtainable text end it in neither list). -/
theorem checkWebsite_no_platform (w : World) (now : Nat) (cfg : Config)
    (saved : LinkData) (tm : Bool)
    (hl : lemmyConfigured cfg = false) (hm : mastodonConfigured cfg = false) :
    (checkWebsite w now cfg saved tm).lemmyPosts = 0 ∧
    (checkWebsite w now cfg saved tm).mastodonPosts = 0 ∧
    (∀ x, x ∈ (checkWebsite w now cfg saved tm).data.links → x ∈ saved.links) ∧
    (∀ x ti te ci,
      x ∈ findNewLinks (extractLinks w.pageHrefs cfg.ignoreDirs)
            saved.links saved.failedLinks →
      w.pages x = .ok ti te ci → te ≠ "" →
      x ∈ (checkWebsite w now cfg saved tm).data.failedLinks) := by
  obtain ⟨ha1, ha2, _, _⟩ := lemmyAuth_configured w now cfg
  simp only [checkWebsite]
  split
  · obtain ⟨i1, i2, i3, i4, i5, i6, i7⟩ := foldl_unconfigured w now tm
      (lemmyAuth w now cfg).1
      (findNewLinks (extractLinks w.pageHrefs cfg.ignoreDirs)
        saved.links saved.failedLinks)
      { links := saved.links, failed := [], cfg := (lemmyAuth w now cfg).2.1,
        mastodonLogins := 0, lemmyPosts := 0, mastodonPosts := 0 }
      (by rw [ha1]; exact hl) (by rw [ha2]; exact hm)
    refine ⟨i3, i4, ?_, ?_⟩
    · intro x hx
      simp only at hx
      split at hx
      · rw [List.mem_filter] at hx
        rw [i1] at hx
        exact hx.1
      · rw [i1] at hx
        exact hx
    · intro x ti te ci hx hpg hte
      simp only
      exact i7 x hx ti te ci hpg hte
  · refine ⟨rfl, rfl, ?_, ?_⟩
    · intro x hx
      simp only at hx
      split at hx
      · exact (List.mem_filter.mp hx).1
      · exact hx
    · intro x ti te ci hx hpg hte
      next h =>
      exfalso
      apply h
      cases hlist : findNewLinks (extractLinks w.pageHrefs cfg.ignoreDirs)
          saved.links saved.failedLinks with
      | nil => rw [hlist] at hx; simp at hx
      | cons b bs => simp

/-- Claim C5 counterexample: with zero platforms configured, a newly
observed link whose detail page yields an empty excerpt is in toPublish
but ends the cycle in neither the pending nor the published list, so it is
not "immediately added to pending" as claimed. -/
theorem no_platform_counterexample :
    lemmyConfigured cfg5 = false ∧ mastodonConfigured cfg5 = false ∧
    "a/index.htm" ∈ findNewLinks (extractLinks w5empty.pageHrefs cfg5.ignoreDirs)
      [] [] ∧
    "a/index.htm" ∉
      (checkWebsite w5empty 5 cfg5
        { links := [], failedLinks := [], lastSeen := 0 } false).data.failedLinks ∧
    "a/index.htm" ∉
      (checkWebsite w5empty 5 cfg5
        { links := [], failedLinks := [], lastSeen := 0 } false).data.links := by
  decide

theorem checkWebsite_no_platform_witness :
    "a/index.htm" ∈
      (checkWebsite w5text 5 cfg5
        { links := [], failedLinks := [], lastSeen := 0 } false).data.failedLinks ∧
    (checkWebsite w5text 5 cfg5
        { links := [], failedLinks := [], lastSeen := 0 } false).lemmyPosts = 0 :=
  ⟨(checkWebsite_no_platform w5text 5 cfg5
      { links := [], failedLinks := [], lastSeen := 0 } false
      (by decide) (by decide)).2.2.2
      "a/index.htm" "" "Body" "" (by decide) (by decide) (by decide),
   (checkWebsite_no_platform w5text 5 cfg5
      { links := [], failedLinks := [], lastSeen := 0 } false
      (by decide) (by decide)).1⟩

theorem findNewLinks_not_in_saved (current saved failed : List String)
    (hdisj : ∀ x, x ∈ saved → x ∉ failed) :
    ∀ x, x ∈ findNewLinks current saved failed → x ∉ saved := by
  intro x hx
  rw [findNewLinks, List.mem_append] at hx
  rcases hx with hx | hx
  · rw [List.mem_filter] at hx
    simpa using hx.2
  · intro hmem
    exact hdisj x hmem hx

/-- Claim C2 (amended): one reconciliation cycle keeps the published and
pending lists disjoint, provided the starting lists are disjoint and the
cycle's toPublish list contains no link twice (without the latter proviso
the claim fails — see the counterexample, where a pending link that is
still observed is processed twice with differing outcomes). -/
theorem checkWebsite_disjoint_preserved (w : World) (now : Nat) (cfg : Config)
    (saved : LinkData) (tm : Bool)
    (hdisj : ∀ x, x ∈ saved.links → x ∉ saved.failedLinks)
    (hnodup : (findNewLinks (extractLinks w.pageHrefs cfg.ignoreDirs)
        saved.links saved.failedLinks).Nodup) :
    ∀ x, x ∈ (checkWebsite w now cfg saved tm).data.links →
         x ∉ (checkWebsite w now cfg saved tm).data.failedLinks := by
  have hfresh := findNewLinks_not_in_saved (extractLinks w.pageHrefs cfg.ignoreDirs)
    saved.links saved.failedLinks hdisj
  simp only [checkWebsite]
  split
  · have hmain := foldl_processLink_disjoint w now tm (lemmyAuth w now cfg).1
      (findNewLinks (extractLinks w.pageHrefs cfg.ignoreDirs) saved.links saved.failedLinks)
      { links := saved.links, failed := [], cfg := (lemmyAuth w now cfg).2.1,
        mastodonLogins := 0, lemmyPosts := 0, mastodonPosts := 0 }
      hnodup (by intro x hx; simp) (by intro x hx; exact ⟨hfresh x hx, by simp⟩)
    intro x hx
    simp only at hx ⊢
    split at hx
    · rw [List.mem_filter] at hx
      exact hmain x hx.1
    · exact hmain x hx
  · intro x hx
    simp only at hx ⊢
    split at hx
    · rw [List.mem_filter] at hx
      exact hdisj x hx.1
    · exact hdisj x hx

/-- Claim C9 (amended): after a cycle, the persisted published and pending
lists are each de-duplicated, provided the starting state is de-duplicated
with disjoint lists and the cycle's toPublish list contains no link twice
(without the latter proviso the claim fails — see the counterexample). -/
theorem checkWebsite_nodup_preserved (w : World) (now : Nat) (cfg : Config)
    (saved : LinkData) (tm : Bool)
    (hlinks : saved.links.Nodup)
    (hfailed : saved.failedLinks.Nodup)
    (hdisj : ∀ x, x ∈ saved.links → x ∉ saved.failedLinks)
    (hnodup : (findNewLinks (extractLinks w.pageHrefs cfg.ignoreDirs)
        saved.links saved.failedLinks).Nodup) :
    (checkWebsite w now cfg saved tm).data.links.Nodup ∧
    (checkWebsite w now cfg saved tm).data.failedLinks.Nodup := by
  have hfresh := findNewLinks_not_in_saved (extractLinks w.pageHrefs cfg.ignoreDirs)
    saved.links saved.failedLinks hdisj
  simp only [checkWebsite]
  split
  · have hmain := foldl_processLink_nodup w now tm (lemmyAuth w now cfg).1
      (findNewLinks (extractLinks w.pageHrefs cfg.ignoreDirs) saved.links saved.failedLinks)
      { links := saved.links, failed := [], cfg := (lemmyAuth w now cfg).2.1,
        mastodonLogins := 0, lemmyPosts := 0, mastodonPosts := 0 }
      hnodup hlinks (by simp) (by intro x hx; exact ⟨hfresh x hx, by simp⟩)
    constructor
    · simp only
      split
      · exact hmain.1.filter _
      · exact hmain.1
    · simp only
      exact hmain.2
  · constructor
    · simp only
      split
      · exact hlinks.filter _
      · exact hlinks
    · simp only
      exact hfailed

/-- Claim C1 (refuted, code bug): in test mode a cycle with a configured
Lemmy platform and a non-empty excerpt appends the link to the persisted
published list even though no publish call was made. -/
theorem checkWebsite_testMode_marks_published :
    (checkWebsite w1 10 cfg1
        { links := [], failedLinks := [], lastSeen := 0 } true).data.links
      = ["a/index.htm"] ∧
    (checkWebsite w1 10 cfg1
        { links := [], failedLinks := [], lastSeen := 0 } true).lemmyPosts = 0 ∧
    (checkWebsite w1 10 cfg1
        { links := [], failedLinks := [], lastSeen := 0 } true).mastodonPosts = 0 := by
  decide

/-- Claim C2 counterexample: starting from a state whose published and
pending lists are disjoint, one cycle ends with the same link in both
lists.  The link is pending and still observed, so the loop processes it
twice — once as newly observed (publish succeeds), once as a retry
(publish fails). -/
theorem disjoint_invariant_counterexample :
    (∀ x, x ∈ ([] : List String) → x ∉ ["a/index.htm"]) ∧
    "a/index.htm" ∈
      (checkWebsite w2x 10 cfg2x
        { links := [], failedLinks := ["a/index.htm"], lastSeen := 0 }
        false).data.links ∧
    "a/index.htm" ∈
      (checkWebsite w2x 10 cfg2x
        { links := [], failedLinks := ["a/index.htm"], lastSeen := 0 }
        false).data.failedLinks := by
  refine ⟨by simp, by decide, by decide⟩

theorem checkWebsite_disjoint_preserved_witness :
    "a/index.htm" ∉
      (checkWebsite w2w 10 cfg2w
        { links := ["b/index.htm"], failedLinks := [], lastSeen := 0 }
        false).data.failedLinks :=
  checkWebsite_disjoint_preserved w2w 10 cfg2w
    { links := ["b/index.htm"], failedLinks := [], lastSeen := 0 } false
    (by intro x hx; simp) (by decide) "a/index.htm" (by decide)

/-- Claim C9 counterexample: starting from a de-duplicated state, one cycle
ends with the published list containing the same link twice — the link is
pending and still observed, so it is processed twice and both publishes
succeed. -/
theorem dedup_counterexample :
    ([] : List String).Nodup ∧ (["a/index.htm"] : List String).Nodup ∧
    (checkWebsite w9x 10 cfg9x
        { links := [], failedLinks := ["a/index.htm"], lastSeen := 0 }
        false).data.links = ["a/index.htm", "a/index.htm"] ∧
    ¬ (checkWebsite w9x 10 cfg9x
        { links := [], failedLinks := ["a/index.htm"], lastSeen := 0 }
        false).data.links.Nodup := by
  refine ⟨by simp, by decide, by decide, by decide⟩

theorem checkWebsite_nodup_preserved_witness :
    (checkWebsite w9w 10 cfg9w
        { links := ["b/index.htm"], failedLinks := [], lastSeen := 0 }
        false).data.links.Nodup :=
  (checkWebsite_nodup_preserved w9w 10 cfg9w
    { links := ["b/index.htm"], failedLinks := [], lastSeen := 0 } false
    (by decide) (by decide) (by intro x hx; simp) (by decide)).1

theorem lemmyAttempt_success (w : World) (jwt : String) (st : LoopSt)
    (hL : lemmyConfigured st.cfg = true) :
    (lemmyAttempt w false jwt st).1 = true ↔
      (jwt ≠ "" ∧ w.lemmyPostR st.lemmyPosts = true) := by
  by_cases hj : jwt = ""
  · subst hj
    simp [lemmyAttempt, hL]
  · by_cases hlp : w.lemmyPostR st.lemmyPosts = true
    · simp [lemmyAttempt, hL, hj, hlp]
    · simp [lemmyAttempt, hL, hj, hlp]

theorem mastodonAttempt_success (w : World) (now : Nat) (st : LoopSt)
    (hM : mastodonConfigured st.cfg = true)
    (htok : ∀ t e, w.mastodonLoginR st.mastodonLogins = some (t, e) → t ≠ "") :
    (mastodonAttempt w now false st).1 = true ↔
      (¬ (st.cfg.mastodonToken ≠ "" ∧ st.cfg.mastodonTokenExp < now ∧
          mastodonCredsComplete st.cfg = true ∧
          w.mastodonLoginR st.mastodonLogins = none) ∧
       w.mastodonPostR st.mastodonPosts = true) := by
  have hacc : ¬ st.cfg.mastodonAccessToken = "" := by
    have h := hM
    simp only [mastodonConfigured, Bool.and_eq_true] at h
    simpa using h.2
  by_cases hneed : st.cfg.mastodonToken ≠ "" ∧ st.cfg.mastodonTokenExp < now
  · by_cases hcr : mastodonCredsComplete st.cfg = true
    · cases hlog : w.mastodonLoginR st.mastodonLogins with
      | none =>
        by_cases hmp : w.mastodonPostR st.mastodonPosts = true
        · simp [mastodonAttempt, mastodonRefresh, hM, hacc, hneed.1, hneed.2,
            hcr, hlog, hmp]
        · simp [mastodonAttempt, mastodonRefresh, hM, hacc, hneed.1, hneed.2,
            hcr, hlog, hmp]
      | some te =>
        rcases te with ⟨tk, e⟩
        have htk : ¬ tk = "" := htok tk e hlog
        by_cases hmp : w.mastodonPostR st.mastodonPosts = true
        · simp [mastodonAttempt, mastodonRefresh, hM, hacc, hneed.1, hneed.2,
            hcr, hlog, hmp, htk]
        · simp [mastodonAttempt, mastodonRefresh, hM, hacc, hneed.1, hneed.2,
            hcr, hlog, hmp, htk]
    · by_cases hmp : w.mastodonPostR st.mastodonPosts = true
      · simp [mastodonAttempt, mastodonRefresh, hM, hacc, hneed.1, hneed.2,
          hcr, hmp]
      · simp [mastodonAttempt, mastodonRefresh, hM, hacc, hneed.1, hneed.2,
          hcr, hmp]
  · rw [not_and_or] at hneed
    by_cases hmp : w.mastodonPostR st.mastodonPosts = true
    · rcases hneed with hneed | hneed
      · simp only [ne_eq, not_not] at hneed
        simp [mastodonAttempt, mastodonRefresh, hM, hacc, hneed, hmp]
      · simp [mastodonAttempt, mastodonRefresh, hM, hacc, hneed, hmp]
    · rcases hneed with hneed | hneed
      · simp only [ne_eq, not_not] at hneed
        simp [mastodonAttempt, mastodonRefresh, hM, hacc, hneed, hmp]
      · simp [mastodonAttempt, mastodonRefresh, hM, hacc, hneed, hmp]

theorem processLink_append_iff (w : World) (now : Nat) (tm : Bool) (jwt : String)
    (st : LoopSt) (link title text city : String)
    (hpage : w.pages link = .ok title text city) (htext : text ≠ "")
    (hplat : lemmyConfigured st.cfg = true ∨ mastodonConfigured st.cfg = true) :
    (((processLink w now tm jwt st link).links = st.links ++ [link] ∧
        (processLink w now tm jwt st link).failed = st.failed) ∨
     ((processLink w now tm jwt st link).links = st.links ∧
        (processLink w now tm jwt st link).failed = st.failed ++ [link])) ∧
    ((processLink w now tm jwt st link).links = st.links ++ [link] ↔
      ((lemmyConfigured st.cfg = true → (lemmyAttempt w tm jwt st).1 = true) ∧
       (mastodonConfigured st.cfg = true →
         (mastodonAttempt w now tm (lemmyAttempt w tm jwt st).2).1 = true))) := by
  obtain ⟨l1, l2, l3, l4, l5⟩ := lemmyAttempt_state w tm jwt st
  obtain ⟨m1, m2, m3, m4, m5⟩ :=
    mastodonAttempt_state w now tm (lemmyAttempt w tm jwt st).2
  have hun : ¬ ((!lemmyConfigured st.cfg && !mastodonConfigured st.cfg) = true) := by
    rcases hplat with h | h <;> simp [h]
  have htx : (text != "") = true := by simpa using htext
  have hcfgL : lemmyConfigured
      (mastodonAttempt w now tm (lemmyAttempt w tm jwt st).2).2.cfg
        = lemmyConfigured st.cfg := by
    rw [m4, l3]
  have hcfgM : mastodonConfigured
      (mastodonAttempt w now tm (lemmyAttempt w tm jwt st).2).2.cfg
        = mastodonConfigured st.cfg := by
    rw [m5, l3]
  simp only [processLink, hpage]
  rw [if_pos htx, if_neg hun]
  simp only [hcfgL, hcfgM]
  split
  next hcond =>
    simp only [Bool.or_eq_true, Bool.and_eq_true, Bool.not_eq_true'] at hcond
    constructor
    · right
      constructor
      · simp only [m1, l1]
      · simp only [m2, l2]
    · constructor
      · intro habs
        exfalso
        have h2 : (mastodonAttempt w now tm (lemmyAttempt w tm jwt st).2).2.links
            = st.links := by rw [m1, l1]
        simp only [h2] at habs
        simp at habs
      · rintro ⟨hLimp, hMimp⟩
        rcases hcond with ⟨hc1, hc2⟩ | ⟨hc1, hc2⟩
        · rw [hLimp hc1] at hc2
          exact absurd hc2 (by simp)
        · rw [hMimp hc1] at hc2
          exact absurd hc2 (by simp)
  next hcond =>
    simp only [Bool.or_eq_true, Bool.and_eq_true, Bool.not_eq_true'] at hcond
    push_neg at hcond
    constructor
    · left
      constructor
      · simp only [m1, l1]
      · simp only [m2, l2]
    · constructor
      · intro _
        constructor
        · intro hLc
          have := hcond.1 hLc
          simp only [Bool.not_eq_false] at this
          exact this
        · intro hMc
          have := hcond.2 hMc
          simp only [Bool.not_eq_false] at this
          exact this
      · intro _
        simp only [m1, l1]

/-- Claim C4: a link processed in real mode with a non-empty excerpt and at
least one configured platform is appended to exactly one of the published
and pending lists, and it is published iff the publish succeeded on every
configured platform: Lemmy succeeds iff a non-empty jwt is held and the
post call succeeds; Mastodon succeeds iff no attempted token refresh failed
and the post call succeeds (credential failure counts as platform failure,
even when the other platform succeeded). -/
theorem processLink_publish_iff (w : World) (now : Nat) (jwt : String)
    (st : LoopSt) (link title text city : String)
    (hpage : w.pages link = .ok title text city)
    (htext : text ≠ "")
    (hplat : lemmyConfigured st.cfg = true ∨ mastodonConfigured st.cfg = true)
    (htok : ∀ t e, w.mastodonLoginR st.mastodonLogins = some (t, e) → t ≠ "") :
    (((processLink w now false jwt st link).links = st.links ++ [link] ∧
        (processLink w now false jwt st link).failed = st.failed) ∨
     ((processLink w now false jwt st link).links = st.links ∧
        (processLink w now false jwt st link).failed = st.failed ++ [link])) ∧
    ((processLink w now false jwt st link).links = st.links ++ [link] ↔
      ((lemmyConfigured st.cfg = true →
          (jwt ≠ "" ∧ w.lemmyPostR st.lemmyPosts = true)) ∧
       (mastodonConfigured st.cfg = true →
          (¬ (st.cfg.mastodonToken ≠ "" ∧ st.cfg.mastodonTokenExp < now ∧
              mastodonCredsComplete st.cfg = true ∧
              w.mastodonLoginR st.mastodonLogins = none) ∧
           w.mastodonPostR st.mastodonPosts = true)))) := by
  obtain ⟨l1, l2, l3, l4, l5⟩ := lemmyAttempt_state w false jwt st
  obtain ⟨hshape, hiff⟩ :=
    processLink_append_iff w now false jwt st link title text city hpage htext hplat
  refine ⟨hshape, ?_⟩
  rw [hiff]
  by_cases hMc : mastodonConfigured st.cfg = true
  · have hmsucc : (mastodonAttempt w now false (lemmyAttempt w false jwt st).2).1 = true ↔
        (¬ (st.cfg.mastodonToken ≠ "" ∧ st.cfg.mastodonTokenExp < now ∧
            mastodonCredsComplete st.cfg = true ∧
            w.mastodonLoginR st.mastodonLogins = none) ∧
         w.mastodonPostR st.mastodonPosts = true) := by
      have base := mastodonAttempt_success w now (lemmyAttempt w false jwt st).2
        (by rw [l3]; exact hMc) (by rw [l4]; exact htok)
      rw [l3, l4, l5] at base
      exact base
    by_cases hLc : lemmyConfigured st.cfg = true
    · have hlsucc := lemmyAttempt_success w jwt st hLc
      constructor
      · rintro ⟨h1, h2⟩
        exact ⟨fun hc => hlsucc.mp (h1 hc), fun hc => hmsucc.mp (h2 hc)⟩
      · rintro ⟨h1, h2⟩
        exact ⟨fun hc => hlsucc.mpr (h1 hc), fun hc => hmsucc.mpr (h2 hc)⟩
    · constructor
      · rintro ⟨h1, h2⟩
        exact ⟨fun hc => absurd hc hLc, fun hc => hmsucc.mp (h2 hc)⟩
      · rintro ⟨h1, h2⟩
        exact ⟨fun hc => absurd hc hLc, fun hc => hmsucc.mpr (h2 hc)⟩
  · have hLc : lemmyConfigured st.cfg = true := by
      rcases hplat with h | h
      · exact h
      · exact absurd h hMc
    have hlsucc := lemmyAttempt_success w jwt st hLc
    constructor
    · rintro ⟨h1, h2⟩
      exact ⟨fun hc => hlsucc.mp (h1 hc), fun hc => absurd hc hMc⟩
    · rintro ⟨h1, h2⟩
      exact ⟨fun hc => hlsucc.mpr (h1 hc), fun hc => absurd hc hMc⟩

theorem processLink_publish_iff_witness :
    (processLink w4 10 false "tok" st4 "a/index.htm").links = [] ∧
    (processLink w4 10 false "tok" st4 "a/index.htm").failed = ["a/index.htm"] := by
  have h := processLink_publish_iff w4 10 "tok" st4 "a/index.htm" "" "Body" ""
    (by decide) (by decide) (by decide)
    (by intro t e he; simp [w4, st4] at he)
  rcases h.1 with ⟨h1, h2⟩ | ⟨h1, h2⟩
  · exfalso
    have := h.2.mp h1
    have hm := this.2 (by decide)
    exact absurd hm.2 (by decide)
  · exact ⟨h1, h2⟩

theorem mastodonAttempt_no_refresh (w : World) (now : Nat) (tm : Bool) (st : LoopSt)
    (h : ¬ (st.cfg.mastodonToken ≠ "" ∧ st.cfg.mastodonTokenExp < now)) :
    (mastodonAttempt w now tm st).2.cfg = st.cfg ∧
    (mastodonAttempt w now tm st).2.mastodonLogins = st.mastodonLogins := by
  unfold mastodonAttempt
  split
  case isTrue hM =>
    have hacc : ¬ st.cfg.mastodonAccessToken = "" := by
      have h2 := hM
      simp only [mastodonConfigured, Bool.and_eq_true] at h2
      simpa using h2.2
    have hre : mastodonRefresh w now st = (true, st.cfg.mastodonAccessToken, st) := by
      unfold mastodonRefresh
      rw [if_neg]
      simp only [Bool.or_eq_true, Bool.and_eq_true, not_or, not_and]
      constructor
      · simpa using hacc
      · intro htk hexp
        apply h
        constructor
        · simpa using htk
        · simpa using hexp
    simp only [hre]
    constructor
    · split
      · rfl
      · split
        · rfl
        · rfl
    · split
      · rfl
      · split
        · rfl
        · rfl
  case isFalse => exact ⟨rfl, rfl⟩

theorem processLink_no_refresh (w : World) (now : Nat) (tm : Bool) (jwt : String)
    (st : LoopSt) (link : String)
    (h : ¬ (st.cfg.mastodonToken ≠ "" ∧ st.cfg.mastodonTokenExp < now)) :
    (processLink w now tm jwt st link).cfg.mastodonToken = st.cfg.mastodonToken ∧
    (processLink w now tm jwt st link).cfg.mastodonTokenExp = st.cfg.mastodonTokenExp ∧
    (processLink w now tm jwt st link).mastodonLogins = st.mastodonLogins := by
  obtain ⟨l1, l2, l3, l4, l5⟩ := lemmyAttempt_state w tm jwt st
  have h1 : ¬ ((lemmyAttempt w tm jwt st).2.cfg.mastodonToken ≠ "" ∧
      (lemmyAttempt w tm jwt st).2.cfg.mastodonTokenExp < now) := by
    rw [l3]
    exact h
  obtain ⟨a1, a2⟩ := mastodonAttempt_no_refresh w now tm (lemmyAttempt w tm jwt st).2 h1
  unfold processLink
  cases hp : w.pages link with
  | fetchErr => exact ⟨rfl, rfl, rfl⟩
  | parseErr => exact ⟨rfl, rfl, rfl⟩
  | ok t te c =>
    simp only
    split
    · split
      · exact ⟨rfl, rfl, rfl⟩
      · split
        · refine ⟨?_, ?_, ?_⟩ <;> simp only [a1, l3, a2, l4]
        · refine ⟨?_, ?_, ?_⟩ <;> simp only [a1, l3, a2, l4]
    · exact ⟨rfl, rfl, rfl⟩

theorem foldl_no_refresh (w : World) (now : Nat) (tm : Bool) (jwt : String)
    (ls : List String) :
    ∀ st : LoopSt, ¬ (st.cfg.mastodonToken ≠ "" ∧ st.cfg.mastodonTokenExp < now) →
      (ls.foldl (processLink w now tm jwt) st).mastodonLogins = st.mastodonLogins := by
  induction ls with
  | nil =>
    intro st _
    rfl
  | cons a rest ih =>
    intro st h
    simp only [List.foldl_cons]
    obtain ⟨p1, p2, p3⟩ := processLink_no_refresh w now tm jwt st a h
    have h2 : ¬ ((processLink w now tm jwt st a).cfg.mastodonToken ≠ "" ∧
        (processLink w now tm jwt st a).cfg.mastodonTokenExp < now) := by
      rw [p1, p2]
      exact h
    rw [ih _ h2, p3]

theorem mastodonRefresh_step (w : World) (now : Nat) (st : LoopSt) :
    ((mastodonRefresh w now st).2.2.mastodonLogins = st.mastodonLogins ∧
     (mastodonRefresh w now st).2.2.cfg = st.cfg) ∨
    ((mastodonRefresh w now st).2.2.mastodonLogins = st.mastodonLogins + 1 ∧
     ((w.mastodonLoginR st.mastodonLogins = none ∧
        (mastodonRefresh w now st).2.2.cfg = st.cfg) ∨
      (∃ t2 e2, w.mastodonLoginR st.mastodonLogins = some (t2, e2) ∧
        (mastodonRefresh w now st).2.2.cfg.mastodonTokenExp = e2))) := by
  unfold mastodonRefresh
  split
  · split
    · split
      next heq =>
        right
        exact ⟨rfl, Or.inl ⟨heq, rfl⟩⟩
      next tk e2 heq =>
        right
        exact ⟨rfl, Or.inr ⟨tk, e2, heq, rfl⟩⟩
    · left
      exact ⟨rfl, rfl⟩
  · left
    exact ⟨rfl, rfl⟩

theorem mastodonAttempt_refresh_step (w : World) (now : Nat) (tm : Bool)
    (st : LoopSt) :
    ((mastodonAttempt w now tm st).2.mastodonLogins = st.mastodonLogins ∧
     (mastodonAttempt w now tm st).2.cfg.mastodonTokenExp = st.cfg.mastodonTokenExp) ∨
    ((mastodonAttempt w now tm st).2.mastodonLogins = st.mastodonLogins + 1 ∧
     ((w.mastodonLoginR st.mastodonLogins = none ∧
        (mastodonAttempt w now tm st).2.cfg.mastodonTokenExp = st.cfg.mastodonTokenExp) ∨
      (∃ t2 e2, w.mastodonLoginR st.mastodonLogins = some (t2, e2) ∧
        (mastodonAttempt w now tm st).2.cfg.mastodonTokenExp = e2))) := by
  have hS := mastodonRefresh_step w now st
  unfold mastodonAttempt
  split
  · rcases hR : mastodonRefresh w now st with ⟨lok, tok, st1⟩
    rw [hR] at hS
    simp only at hS
    simp only
    split
    · rcases hS with ⟨a, b⟩ | ⟨a, hb⟩
      · left
        exact ⟨a, by rw [b]⟩
      · right
        refine ⟨a, ?_⟩
        rcases hb with ⟨hn, hc⟩ | ⟨t2, e2, hs2, he2⟩
        · left
          exact ⟨hn, by rw [hc]⟩
        · right
          exact ⟨t2, e2, hs2, he2⟩
    · split
      · rcases hS with ⟨a, b⟩ | ⟨a, hb⟩
        · left
          refine ⟨a, ?_⟩
          show st1.cfg.mastodonTokenExp = st.cfg.mastodonTokenExp
          rw [b]
        · right
          refine ⟨a, ?_⟩
          rcases hb with ⟨hn, hc⟩ | ⟨t2, e2, hs2, he2⟩
          · left
            refine ⟨hn, ?_⟩
            show st1.cfg.mastodonTokenExp = st.cfg.mastodonTokenExp
            rw [hc]
          · right
            exact ⟨t2, e2, hs2, he2⟩
      · rcases hS with ⟨a, b⟩ | ⟨a, hb⟩
        · left
          exact ⟨a, by rw [b]⟩
        · right
          refine ⟨a, ?_⟩
          rcases hb with ⟨hn, hc⟩ | ⟨t2, e2, hs2, he2⟩
          · left
            exact ⟨hn, by rw [hc]⟩
          · right
            exact ⟨t2, e2, hs2, he2⟩
  · left
    exact ⟨rfl, rfl⟩

theorem processLink_refresh_step (w : World) (now : Nat) (tm : Bool) (jwt : String)
    (st : LoopSt) (link : String) :
    ((processLink w now tm jwt st link).mastodonLogins = st.mastodonLogins ∧
     (processLink w now tm jwt st link).cfg.mastodonTokenExp = st.cfg.mastodonTokenExp) ∨
    ((processLink w now tm jwt st link).mastodonLogins = st.mastodonLogins + 1 ∧
     ((w.mastodonLoginR st.mastodonLogins = none ∧
        (processLink w now tm jwt st link).cfg.mastodonTokenExp = st.cfg.mastodonTokenExp) ∨
      (∃ t2 e2, w.mastodonLoginR st.mastodonLogins = some (t2, e2) ∧
        (processLink w now tm jwt st link).cfg.mastodonTokenExp = e2))) := by
  obtain ⟨l1, l2, l3, l4, l5⟩ := lemmyAttempt_state w tm jwt st
  have hstep := mastodonAttempt_refresh_step w now tm (lemmyAttempt w tm jwt st).2
  rw [l3, l4] at hstep
  unfold processLink
  cases hp : w.pages link with
  | fetchErr => left; exact ⟨rfl, rfl⟩
  | parseErr => left; exact ⟨rfl, rfl⟩
  | ok t te c =>
    simp only
    split
    · split
      · left
        exact ⟨rfl, rfl⟩
      · rcases hstep with ⟨a, b⟩ | ⟨a, hb⟩
        · left
          split
          · exact ⟨a, b⟩
          · exact ⟨a, b⟩
        · right
          split
          · refine ⟨a, ?_⟩
            rcases hb with ⟨hn, hc⟩ | ⟨t2, e2, hs2, he2⟩
            · left
              exact ⟨hn, hc⟩
            · right
              exact ⟨t2, e2, hs2, he2⟩
          · refine ⟨a, ?_⟩
            rcases hb with ⟨hn, hc⟩ | ⟨t2, e2, hs2, he2⟩
            · left
              exact ⟨hn, hc⟩
            · right
              exact ⟨t2, e2, hs2, he2⟩
    · left
      exact ⟨rfl, rfl⟩

theorem foldl_single_refresh (w : World) (now : Nat) (tm : Bool) (jwt : String)
    (tk : String) (e : Nat)
    (hlog : w.mastodonLoginR 0 = some (tk, e)) (he : ¬ (e < now))
    (ls : List String) :
    ∀ st : LoopSt,
      (st.mastodonLogins = 0 ∨
        (st.mastodonLogins ≤ 1 ∧ ¬ (st.cfg.mastodonTokenExp < now))) →
      (ls.foldl (processLink w now tm jwt) st).mastodonLogins ≤ 1 := by
  induction ls with
  | nil =>
    intro st h
    rcases h with h | h
    · simp only [List.foldl_nil, h]
      omega
    · exact h.1
  | cons a rest ih =>
    intro st h
    simp only [List.foldl_cons]
    apply ih
    rcases h with h0 | ⟨hle, hexp⟩
    · rcases processLink_refresh_step w now tm jwt st a with ⟨p1, p2⟩ | ⟨p1, hp⟩
      · left
        rw [p1, h0]
      · right
        constructor
        · rw [p1, h0]
        · rcases hp with ⟨hnone, _⟩ | ⟨t2, e2, hsome, hexp2⟩
          · rw [h0, hlog] at hnone
            cases hnone
          · rw [h0, hlog] at hsome
            have hpr : tk = t2 ∧ e = e2 := by
              have := hsome
              simp only [Option.some.injEq, Prod.mk.injEq] at this
              exact this
            rw [hexp2, ← hpr.2]
            exact he
    · have hnr : ¬ (st.cfg.mastodonToken ≠ "" ∧ st.cfg.mastodonTokenExp < now) :=
        fun hc => hexp hc.2
      obtain ⟨q1, q2, q3⟩ := processLink_no_refresh w now tm jwt st a hnr
      right
      constructor
      · rw [q3]
        exact hle
      · rw [q2]
        exact hexp

/-- Claim C6 (amended): a stored, unexpired Lemmy token suppresses the login
call; an absent or expired Lemmy token triggers exactly one login per cycle
that has links to process; a Mastodon stored token that has not expired
triggers no refresh; and if the first Mastodon refresh attempt of a cycle
succeeds with an unexpired expiry, at most one refresh happens.  (A failed
Mastodon refresh, by contrast, is retried for every processed link — see
the counterexample.) -/
theorem token_refresh_policy (w : World) (now : Nat) (cfg : Config)
    (saved : LinkData) (tm : Bool) :
    (cfg.lemmyToken ≠ "" → now < cfg.lemmyTokenExp →
      (checkWebsite w now cfg saved tm).lemmyLogins = 0) ∧
    (findNewLinks (extractLinks w.pageHrefs cfg.ignoreDirs)
        saved.links saved.failedLinks ≠ [] →
      ¬ (cfg.lemmyToken ≠ "" ∧ now < cfg.lemmyTokenExp) →
      (checkWebsite w now cfg saved tm).lemmyLogins = 1) ∧
    (now ≤ cfg.mastodonTokenExp →
      (checkWebsite w now cfg saved tm).mastodonLogins = 0) ∧
    (∀ tk e, w.mastodonLoginR 0 = some (tk, e) → now ≤ e →
      (checkWebsite w now cfg saved tm).mastodonLogins ≤ 1) := by
  obtain ⟨ha1, ha2, ha3, ha4⟩ := lemmyAuth_configured w now cfg
  refine ⟨?_, ?_, ?_, ?_⟩
  · intro htk hexp
    have hauth : (lemmyAuth w now cfg).2.2 = 0 := by
      unfold lemmyAuth
      rw [if_pos (by simp [htk, hexp])]
    simp only [checkWebsite]
    split
    · exact hauth
    · rfl
  · intro hnew hcond
    have hauth : (lemmyAuth w now cfg).2.2 = 1 := by
      unfold lemmyAuth
      rw [if_neg]
      · split
        · rfl
        · rfl
      · intro hc
        apply hcond
        simp only [Bool.and_eq_true] at hc
        constructor
        · simpa using hc.1
        · simpa using hc.2
    simp only [checkWebsite]
    split
    · exact hauth
    · next hlen =>
      exfalso
      apply hlen
      cases hlist : findNewLinks (extractLinks w.pageHrefs cfg.ignoreDirs)
          saved.links saved.failedLinks with
      | nil => exact absurd hlist hnew
      | cons b bs => simp
  · intro hexp
    simp only [checkWebsite]
    split
    · have h0 : ¬ ((lemmyAuth w now cfg).2.1.mastodonToken ≠ "" ∧
          (lemmyAuth w now cfg).2.1.mastodonTokenExp < now) := by
        rw [ha3, ha4]
        intro hc
        omega
      exact foldl_no_refresh w now tm (lemmyAuth w now cfg).1 _ _ h0
    · rfl
  · intro tk e hlog hee
    simp only [checkWebsite]
    split
    · exact foldl_single_refresh w now tm (lemmyAuth w now cfg).1 tk e hlog
        (by omega) _ _ (Or.inl rfl)
    · exact Nat.zero_le 1

/-- Claim C6 counterexample: with a Mastodon token whose expiry lies in the
past and a failing refresh endpoint, a cycle that processes two links
performs two refresh attempts, not exactly one. -/
theorem mastodon_refresh_twice_counterexample :
    cfg6x.mastodonToken ≠ "" ∧ cfg6x.mastodonTokenExp < 10 ∧
    (checkWebsite w6x 10 cfg6x
        { links := [], failedLinks := [], lastSeen := 0 } false).mastodonLogins
      = 2 := by
  refine ⟨by decide, by decide, by decide⟩

theorem token_refresh_policy_witness :
    (checkWebsite w6w 10 cfg6w
        { links := [], failedLinks := [], lastSeen := 0 } false).lemmyLogins = 0 :=
  (token_refresh_policy w6w 10 cfg6w
    { links := [], failedLinks := [], lastSeen := 0 } false).1
    (by decide) (by decide)

/-- Claim C7 counterexample: a configuration with a persisted Lemmy token
but no username/password, and Mastodon client credentials but no access
token, is configured for both platforms under the claim's definition, yet
the code treats both platforms as unconfigured. -/
theorem configured_spec_counterexample :
    lemmyConfiguredSpec cfg7x = true ∧ lemmyConfigured cfg7x = false ∧
    mastodonConfiguredSpec cfg7x = true ∧ mastodonConfigured cfg7x = false := by
  decide

theorem processLink_lemmy_skipped (w : World) (now : Nat) (tm : Bool)
    (jwt : String) (st : LoopSt) (link : String)
    (hL : lemmyConfigured st.cfg = false) :
    (processLink w now tm jwt st link).lemmyPosts = st.lemmyPosts := by
  obtain ⟨m1, m2, m3, m4, m5⟩ :=
    mastodonAttempt_state w now tm (lemmyAttempt w tm jwt st).2
  have hle : lemmyAttempt w tm jwt st = (true, st) := by
    unfold lemmyAttempt
    rw [if_neg (by simp [hL])]
  unfold processLink
  cases hp : w.pages link with
  | fetchErr => rfl
  | parseErr => rfl
  | ok t te c =>
    simp only
    split
    · split
      · rfl
      · simp only [hle] at m3 ⊢
        split
        · exact m3
        · exact m3
    · rfl

theorem processLink_mastodon_skipped (w : World) (now : Nat) (tm : Bool)
    (jwt : String) (st : LoopSt) (link : String)
    (hM : mastodonConfigured st.cfg = false) :
    (processLink w now tm jwt st link).mastodonPosts = st.mastodonPosts ∧
    (processLink w now tm jwt st link).mastodonLogins = st.mastodonLogins := by
  obtain ⟨l1, l2, l3, l4, l5⟩ := lemmyAttempt_state w tm jwt st
  have hM1 : mastodonConfigured (lemmyAttempt w tm jwt st).2.cfg = false := by
    rw [l3]
    exact hM
  have hma : mastodonAttempt w now tm (lemmyAttempt w tm jwt st).2
      = (true, (lemmyAttempt w tm jwt st).2) := by
    unfold mastodonAttempt
    rw [if_neg (by simp [hM1])]
  unfold processLink
  cases hp : w.pages link with
  | fetchErr => exact ⟨rfl, rfl⟩
  | parseErr => exact ⟨rfl, rfl⟩
  | ok t te c =>
    simp only
    split
    · split
      · exact ⟨rfl, rfl⟩
      · simp only [hma]
        split
        · exact ⟨l5, l4⟩
        · exact ⟨l5, l4⟩
    · exact ⟨rfl, rfl⟩

/-- Claim C7 (amended): Lemmy counts as configured iff server, community,
username and password are all non-empty — a persisted token alone does not
qualify; Mastodon counts as configured iff server and access token are
non-empty — the client-credential path alone does not qualify.  An
unconfigured platform is skipped silently: its post call (and, for
Mastodon, its login call) is never made for any link. -/
theorem configured_amended (c : Config) :
    (lemmyConfigured c = true ↔
      (c.lemmyServer ≠ "" ∧ c.lemmyCommunity ≠ "" ∧
       c.lemmyUsername ≠ "" ∧ c.lemmyPassword ≠ "")) ∧
    (mastodonConfigured c = true ↔
      (c.mastodonServer ≠ "" ∧ c.mastodonAccessToken ≠ "")) ∧
    (lemmyConfigured c = false →
      ∀ w now tm jwt st link, st.cfg = c →
        (processLink w now tm jwt st link : LoopSt).lemmyPosts = st.lemmyPosts) ∧
    (mastodonConfigured c = false →
      ∀ w now tm jwt st link, st.cfg = c →
        (processLink w now tm jwt st link : LoopSt).mastodonPosts
            = st.mastodonPosts ∧
        (processLink w now tm jwt st link : LoopSt).mastodonLogins
            = st.mastodonLogins) := by
  refine ⟨?_, ?_, ?_, ?_⟩
  · simp [lemmyConfigured, Bool.and_eq_true, and_assoc]
  · simp [mastodonConfigured, Bool.and_eq_true]
  · intro hL w now tm jwt st link hst
    exact processLink_lemmy_skipped w now tm jwt st link (by rw [hst]; exact hL)
  · intro hM w now tm jwt st link hst
    exact processLink_mastodon_skipped w now tm jwt st link (by rw [hst]; exact hM)

theorem configured_amended_witness :
    lemmyConfigured cfg7w = false ∧
    (processLink w7w 5 false "" st7w "a/index.htm").lemmyPosts = st7w.lemmyPosts :=
  ⟨by decide,
   (configured_amended cfg7w).2.2.1 (by decide) w7w 5 false "" st7w "a/index.htm" rfl⟩

end GVG

